import Mathlib

/-!
Verification of the project_anarchy corpus and of the taint-flow /
vulnerability-pattern analyzer specified for it.

The repository itself is a corpus of deliberately flawed Python fixtures; the
analyzer (Source Model Builder, Resolver, Taint Engine, Pattern Detectors,
Aggregator) is specified in the design document but not implemented in the
repository.  Definitions of analyzer components below are therefore modelled
from the spec (each such definition says so in its doc comment), while the
fixture functions they are applied to (`get_user_by_username`, `search_users`,
`leaky_function`, `thread_1_function`, `thread_2_function`,
`load_module_dynamically`, `BankAccount.transfer_to`, `read_file`, the
spaghetti module cycle, and the corpus file table) are shallow embeddings of
the Python sources, translated statement by statement with their real line
numbers.
-/

namespace Anarchy

/-! ## Findings (spec §3, §6)

A Finding is `{rule id, severity, file, line, message, evidence}` where the
evidence is an ordered list of (file, line) steps. -/

inductive Severity
  | critical
  | high
  | medium
  | low
  | info
deriving DecidableEq, Repr

/-- Rank used by the aggregator: `critical` first. -/
def Severity.rank : Severity → Nat
  | .critical => 0
  | .high => 1
  | .medium => 2
  | .low => 3
  | .info => 4

structure Finding where
  rule : String
  severity : Severity
  file : String
  line : Nat
  message : String
  evidence : List (String × Nat)
deriving DecidableEq, Repr

/-! ## Statement-level taint model (spec §4.3, modelled from the spec)

The corpus functions relevant to the taint claims are straight-line bodies;
each statement is embedded with its source line number. -/

/-- One embedded statement of a Python function body.  `paramBind` is a
request-parameter binding (a declared TaintSource match), `assignFmt` is an
f-string / format assignment, `execSql` is a `cursor.execute(arg)` sink,
`dynCallAssign lhs arg` is `lhs = importlib.import_module(arg)`-style dynamic
invocation, and `ret` is a return statement. -/
inductive Stmt
  | paramBind (v : String)
  | assignConst (lhs : String)
  | assignFmt (lhs : String) (ops : List String)
  | execSql (arg : String)
  | dynCallAssign (lhs : String) (arg : String)
  | ret (v : String)
deriving DecidableEq, Repr

/-- A function body: statements paired with their source line numbers. -/
abbrev Body := List (Nat × Stmt)

/-- Taint facts: tainted symbol ↦ evidence path (source lines from the
TaintSource to the current definition of the symbol). -/
abbrev TaintMap := List (String × List Nat)

def lookupTaint (m : TaintMap) (v : String) : Option (List Nat) :=
  (m.find? (fun p => p.1 == v)).map (fun p => p.2)

def setTaint (m : TaintMap) (v : String) (path : List Nat) : TaintMap :=
  (v, path) :: m.filter (fun q => q.1 != v)

def clearTaint (m : TaintMap) (v : String) : TaintMap :=
  m.filter (fun q => q.1 != v)

/-- Modelled from the spec: ties between several tainted operands of one
formatting expression are broken by the shortest discovered path, earliest
operand first (§4.3: "shortest discovered source→sink path, ties broken by
earliest discovered"). -/
def bestOperandPath (m : TaintMap) (ops : List String) : Option (List Nat) :=
  ops.foldl
    (fun acc v =>
      match lookupTaint m v with
      | none => acc
      | some p =>
        match acc with
        | none => some p
        | some q => if p.length < q.length then some p else some q)
    none

/-- Modelled from the spec: the Taint Engine's transfer function for one
statement (§4.3 rules (a) assignment and (c) string formatting, the
`sql-exec` sink rule of Scenario A, and the §4.2/§9 dynamic-call boundary:
an unresolved dynamic call is flagged at the call site, every taint path
reaching it stops with a blind-spot Finding, and no taint flows past it).
The analyzer itself is not in the repository; this is its specified
behaviour. -/
def stepStmt (file : String) (line : Nat) (s : Stmt) (m : TaintMap) :
    List Finding × TaintMap :=
  match s with
  | .paramBind v => ([], setTaint m v [line])
  | .assignConst lhs => ([], clearTaint m lhs)
  | .assignFmt lhs ops =>
    match bestOperandPath m ops with
    | some p => ([], setTaint m lhs (p ++ [line]))
    | none => ([], clearTaint m lhs)
  | .execSql arg =>
    match lookupTaint m arg with
    | some p =>
      ([{ rule := "sql-injection", severity := .critical, file := file,
          line := line, message := "tainted SQL string reaches execute",
          evidence := (p ++ [line]).map (fun l => (file, l)) }], m)
    | none => ([], m)
  | .dynCallAssign lhs arg =>
    let unresolved : List Finding :=
      [{ rule := "unresolved-dynamic-call", severity := .medium, file := file,
         line := line, message := "dynamic call target computed at runtime",
         evidence := [(file, line)] }]
    let blind : List Finding :=
      match lookupTaint m arg with
      | some p =>
        [{ rule := "taint-blind-spot", severity := .info, file := file,
           line := line, message := "taint path stops at unresolved dynamic call",
           evidence := (p ++ [line]).map (fun l => (file, l)) }]
      | none => []
    (unresolved ++ blind, clearTaint m lhs)
  | .ret _ => ([], m)

/-- Modelled from the spec: run the Taint Engine over a straight-line body,
collecting Findings in program order. -/
def runBody (file : String) (body : Body) : List Finding × TaintMap :=
  body.foldl
    (fun acc st =>
      let r := stepStmt file st.1 st.2 acc.2
      (acc.1 ++ r.1, r.2))
    ([], [])

/-- Modelled from the spec (§4.2, §9): the Resolver's view of the call sites
of a body.  A dynamic/reflective call becomes a synthetic
`Unresolved(dynamic)` callee node instead of crashing or being dropped. -/
inductive CalleeNode
  | resolved (name : String)
  | unresolvedDynamic (line : Nat)
deriving DecidableEq, Repr

/-- Modelled from the spec: resolve the call sites of a body. -/
def resolveCalls (body : Body) : List CalleeNode :=
  body.foldr
    (fun st acc =>
      match st.2 with
      | .dynCallAssign _ _ => .unresolvedDynamic st.1 :: acc
      | _ => acc)
    []

/-! ## Embedded corpus functions for the taint claims -/

/-- Shallow embedding of `get_user_by_username` (src/api/db.py, lines 14–21):
line 14 binds the `username` parameter, lines 15–16 create the connection and
cursor, line 18 builds the SQL string by f-string interpolation of
`username`, line 19 calls `cursor.execute(query)`, line 21 returns
`cursor.fetchone()`. -/
def get_user_by_username : Body :=
  [ (14, .paramBind "username"),
    (15, .assignConst "conn"),
    (16, .assignConst "cursor"),
    (18, .assignFmt "query" ["username"]),
    (19, .execSql "query"),
    (21, .ret "cursor") ]

/-- Shallow embedding of `search_users`
(src/frameworks/django_project/taint_views.py, lines 34–51): lines 39–41 bind
the request parameters `query`, `sort_by`, `limit`; line 45 builds `sql` by
f-string interpolation of all three; line 49 calls `cursor.execute(sql)`. -/
def search_users : Body :=
  [ (39, .paramBind "query"),
    (40, .paramBind "sort_by"),
    (41, .paramBind "limit"),
    (45, .assignFmt "sql" ["query", "sort_by", "limit"]),
    (49, .execSql "sql") ]

/-- Shallow embedding of `load_module_dynamically`
(src/api/dynamic_loader.py, lines 15–18): line 15 binds the `module_name`
parameter, line 17 is `module = importlib.import_module(module_name)` (a
dynamic call whose target name is computed at runtime), line 18 returns
`module`. -/
def load_module_dynamically : Body :=
  [ (15, .paramBind "module_name"),
    (17, .dynCallAssign "module" "module_name"),
    (18, .ret "module") ]

def dbFile : String := "src/api/db.py"
def djangoFile : String := "src/frameworks/django_project/taint_views.py"
def dynFile : String := "src/api/dynamic_loader.py"

/-- C1: on each corpus function that builds a SQL string by f-string
interpolation of a request parameter and then calls `cursor.execute(sql)`
(`get_user_by_username` in src/api/db.py and `search_users` in
src/frameworks/django_project/taint_views.py), the analyzer reports exactly
one `critical` Finding of rule `sql-injection`, and its evidence chain
starts at the parameter-binding line (14 resp. 39) and ends at the
execute-call line (19 resp. 49). -/
theorem sql_injection_single_critical_finding :
    (runBody dbFile get_user_by_username).1 =
      [{ rule := "sql-injection", severity := .critical, file := dbFile,
         line := 19, message := "tainted SQL string reaches execute",
         evidence := [(dbFile, 14), (dbFile, 18), (dbFile, 19)] }] ∧
    (runBody djangoFile search_users).1 =
      [{ rule := "sql-injection", severity := .critical, file := djangoFile,
         line := 49, message := "tainted SQL string reaches execute",
         evidence := [(djangoFile, 39), (djangoFile, 45), (djangoFile, 49)] }] ∧
    ((runBody dbFile get_user_by_username).1.map
        (fun f => (f.evidence.head?, f.evidence.getLast?))) =
      [(some (dbFile, 14), some (dbFile, 19))] ∧
    ((runBody djangoFile search_users).1.map
        (fun f => (f.evidence.head?, f.evidence.getLast?))) =
      [(some (djangoFile, 39), some (djangoFile, 49))] :=
  ⟨rfl, rfl, rfl, rfl⟩

/-- C5: on `load_module_dynamically` (src/api/dynamic_loader.py), whose call
target `importlib.import_module(module_name)` is computed at runtime, the
analysis is total (it is a Lean function, so it cannot crash): the Resolver
produces a synthetic `Unresolved(dynamic)` callee node for line 17, an
`unresolved-dynamic-call` Finding is emitted at the call site, the taint
path reaching that call (from the `module_name` binding at line 15) stops
with a blind-spot Finding rather than being dropped, and no taint
propagates past the call (`module` is untainted afterwards). -/
theorem dynamic_call_unresolved_blind_spot :
    resolveCalls load_module_dynamically = [.unresolvedDynamic 17] ∧
    (runBody dynFile load_module_dynamically).1 =
      [{ rule := "unresolved-dynamic-call", severity := .medium, file := dynFile,
         line := 17, message := "dynamic call target computed at runtime",
         evidence := [(dynFile, 17)] },
       { rule := "taint-blind-spot", severity := .info, file := dynFile,
         line := 17, message := "taint path stops at unresolved dynamic call",
         evidence := [(dynFile, 15), (dynFile, 17)] }] ∧
    lookupTaint (runBody dynFile load_module_dynamically).2 "module" = none :=
  ⟨rfl, rfl, rfl⟩

/-! ## Control-flow graphs and the unreleased-resource detector (spec §4.4) -/

/-- The kinds of CFG nodes the unreleased-resource detector distinguishes:
acquiring a scoped resource, releasing it, an ordinary statement, a branch,
and a function exit (return). -/
inductive NodeKind
  | acquire (res : String)
  | release (res : String)
  | action
  | branch
  | exitNode
deriving DecidableEq, Repr

/-- One CFG node: id, source line, kind, successor ids. -/
structure CfgNode where
  id : Nat
  line : Nat
  kind : NodeKind
  next : List Nat
deriving DecidableEq, Repr

abbrev Cfg := List CfgNode

def findNode (g : Cfg) (i : Nat) : Option CfgNode :=
  g.find? (fun n => n.id == i)

/-- All maximal paths from node `i`, bounded by `fuel` (the corpus CFGs are
acyclic, so fuel = number of nodes suffices). -/
def pathsFrom (g : Cfg) : Nat → Nat → List (List CfgNode)
  | 0, _ => []
  | fuel + 1, i =>
    match findNode g i with
    | none => []
    | some n =>
      if n.next.isEmpty then [[n]]
      else (n.next.map (fun j => (pathsFrom g fuel j).map (fun p => n :: p))).flatten

def pathReleases (r : String) (p : List CfgNode) : Bool :=
  p.any (fun m => m.kind == NodeKind.release r)

def pathExitLine (p : List CfgNode) : Nat :=
  ((p.getLast?).map (fun n => n.line)).getD 0

/-- Modelled from the spec (§4.4 Unreleased-resource): for every CFG node
that acquires a scoped resource, every path from the acquisition to a
function exit that does not pass through a matching release is flagged
separately, the Finding citing the exit line of the leaking path.  The
detector itself is not implemented in the repository. -/
def detectUnreleased (file : String) (g : Cfg) : List Finding :=
  g.foldr
    (fun n acc =>
      match n.kind with
      | .acquire r =>
        (((pathsFrom g g.length n.id).filter
            (fun p => !pathReleases r p)).map
          (fun p =>
            { rule := "unreleased-resource", severity := .high, file := file,
              line := pathExitLine p,
              message := "resource acquired here may not be released",
              evidence := [(file, n.line), (file, pathExitLine p)] })) ++ acc
      | _ => acc)
    []

/-- Shallow embedding of the CFG of `leaky_function`
(src/flow_analysis/resource_leak.py, lines 17–29): line 19 opens the file
(`f = open(filename, 'r')`), line 22 branches on `condition`, line 23 reads
on the true branch and line 24 returns early without closing, line 27 reads
on the false branch, line 28 closes `f`, line 29 returns. -/
def leaky_function_cfg : Cfg :=
  [ ⟨1, 19, .acquire "f", [2]⟩,
    ⟨2, 22, .branch, [3, 5]⟩,
    ⟨3, 23, .action, [4]⟩,
    ⟨4, 24, .exitNode, []⟩,
    ⟨5, 27, .action, [6]⟩,
    ⟨6, 28, .release "f", [7]⟩,
    ⟨7, 29, .exitNode, []⟩ ]

def leakFile : String := "src/flow_analysis/resource_leak.py"

/-- C3: on the CFG of `leaky_function` — open a file, return early on one
branch without closing, close on the other branch — the unreleased-resource
detector reports exactly one Finding, citing the early-return line 24, and
reports no Finding on the closing branch (no Finding cites line 28 or 29). -/
theorem unreleased_resource_single_finding :
    detectUnreleased leakFile leaky_function_cfg =
      [{ rule := "unreleased-resource", severity := .high, file := leakFile,
         line := 24,
         message := "resource acquired here may not be released",
         evidence := [(leakFile, 19), (leakFile, 24)] }] ∧
    (detectUnreleased leakFile leaky_function_cfg).all
      (fun f => f.line != 28 && f.line != 29) = true :=
  ⟨rfl, rfl⟩

/-! ## Lock-order deadlock detector (spec §4.4) -/

/-- The nested lock-acquisition sequence observed in one function:
the function's name and its acquired locks in nesting order, each with the
line of the acquire site. -/
structure LockSeq where
  func : String
  acquires : List (String × Nat)
deriving DecidableEq, Repr

/-- For an acquisition sequence, all (acquired, held, line) triples: the
function acquires the first lock at the given line while already holding the
second. -/
def heldPairs : List (String × Nat) → List (String × String × Nat)
  | [] => []
  | (a, _) :: rest => rest.map (fun b => (b.1, a, b.2)) ++ heldPairs rest

/-- Modelled from the spec (§4.4 Lock-order deadlock): the per-process lock
acquisition-order graph — an edge A→B means some function acquires A while
holding B. -/
def lockOrderEdges (funcs : List LockSeq) : List (String × String) :=
  (funcs.map (fun s => (heldPairs s.acquires).map (fun p => (p.1, p.2.1)))).flatten

/-- Deadlock findings contributed by an ordered pair of distinct functions:
`s` acquires B while holding A and `t` acquires A while holding B (a cycle
A→B, B→A in the acquisition-order graph), flagged once, citing both
contributing call sites. -/
def pairConflicts (file : String) (s t : LockSeq) : List Finding :=
  ((heldPairs s.acquires).map
      (fun p =>
        ((heldPairs t.acquires).filter
            (fun q => q.1 == p.2.1 && q.2.1 == p.1)).map
          (fun q =>
            { rule := "deadlock-potential", severity := .high, file := file,
              line := p.2.2,
              message := s.func ++ " and " ++ t.func,
              evidence := [(file, p.2.2), (file, q.2.2)] }))).flatten

def allPairs {α : Type} : List α → List (α × α)
  | [] => []
  | x :: xs => xs.map (fun y => (x, y)) ++ allPairs xs

/-- Modelled from the spec (§4.4): the lock-order deadlock detector over all
functions of a file. -/
def detectDeadlock (file : String) (funcs : List LockSeq) : List Finding :=
  ((allPairs funcs).map (fun p => pairConflicts file p.1 p.2)).flatten

/-- Shallow embedding of `thread_1_function`
(src/flow_analysis/deadlock.py, lines 22–41): acquires `lock_a` at line 28,
then `lock_b` at line 37 while holding `lock_a`. -/
def thread_1_function : LockSeq :=
  ⟨"thread_1_function", [("lock_a", 28), ("lock_b", 37)]⟩

/-- Shallow embedding of `thread_2_function`
(src/flow_analysis/deadlock.py, lines 43–62): acquires `lock_b` at line 49,
then `lock_a` at line 58 while holding `lock_b` — the opposite order. -/
def thread_2_function : LockSeq :=
  ⟨"thread_2_function", [("lock_b", 49), ("lock_a", 58)]⟩

def deadlockFile : String := "src/flow_analysis/deadlock.py"

/-- C4: on `thread_1_function` (lock A then B) and `thread_2_function`
(lock B then A), the acquisition-order graph contains both edges between
`lock_a` and `lock_b` (the cycle), and the detector reports exactly one
`deadlock-potential` Finding whose message names both functions and whose
evidence cites both contributing acquire sites (lines 37 and 58). -/
theorem deadlock_potential_single_finding :
    ("lock_b", "lock_a") ∈ lockOrderEdges [thread_1_function, thread_2_function] ∧
    ("lock_a", "lock_b") ∈ lockOrderEdges [thread_1_function, thread_2_function] ∧
    detectDeadlock deadlockFile [thread_1_function, thread_2_function] =
      [{ rule := "deadlock-potential", severity := .high, file := deadlockFile,
         line := 37,
         message := "thread_1_function and thread_2_function",
         evidence := [(deadlockFile, 37), (deadlockFile, 58)] }] := by
  refine ⟨?_, ?_, rfl⟩ <;> simp [lockOrderEdges, thread_1_function,
    thread_2_function, heldPairs]

/-! ## `read_file` path computation (src/api/taint_endpoints.py) -/

/-- Does the string start with the character '/'. -/
def startsWithSlash (s : String) : Bool :=
  match s.data with
  | [] => false
  | c :: _ => c == '/'

/-- Does the string end with the character '/'. -/
def endsWithSlash (s : String) : Bool :=
  match s.data.getLast? with
  | some c => c == '/'
  | none => false

/-- `os.path.join` for two components on POSIX, as the code itself documents
("os.path.join ignores previous parts if a component is absolute"): if the
second component starts with '/', the first is discarded; otherwise they are
joined with a separator unless the first is empty or already ends in '/'. -/
def posixJoin (a b : String) : String :=
  if startsWithSlash b then b
  else if a == "" || endsWithSlash a then a ++ b
  else a ++ "/" ++ b

/-- The base directory bound at line 343 of src/api/taint_endpoints.py. -/
def read_file_base_dir : String := "/var/uploads"

/-- Shallow embedding of the `file_path` computation of the `read_file`
endpoint (src/api/taint_endpoints.py, line 347):
`file_path = os.path.join(base_dir, filename)`.  The endpoint then opens
exactly this path. -/
def read_file_path (filename : String) : String :=
  posixJoin read_file_base_dir filename

/-- C8: for every filename beginning with '/', the `file_path` computed by
`read_file` equals the caller-supplied filename exactly — `os.path.join`
discards the `/var/uploads` base when the second component is absolute — so
the endpoint attempts to open the caller-supplied absolute path with no
confinement to the base directory. -/
theorem read_file_absolute_filename_escapes_base (filename : String)
    (h : startsWithSlash filename = true) :
    read_file_path filename = filename := by
  simp [read_file_path, posixJoin, h]

/-- Witness for C8 at the attack payload documented in the source,
`filename = "/etc/passwd"`. -/
theorem read_file_absolute_filename_escapes_base_witness :
    startsWithSlash "/etc/passwd" = true ∧
      read_file_path "/etc/passwd" = "/etc/passwd" :=
  ⟨rfl, read_file_absolute_filename_escapes_base "/etc/passwd" rfl⟩

/-! ## `BankAccount.transfer_to` (src/flow_analysis/deadlock.py, lines 85–103) -/

/-- Shallow embedding of the `BankAccount` class: account id and balance
(Python integers are unbounded, so the balance is an `Int`).  The lock is
irrelevant under the sequential execution the claim assumes. -/
structure BankAccount where
  account_id : String
  balance : Int
deriving DecidableEq, Repr

/-- Shallow embedding of `BankAccount.transfer_to` (lines 93–103) under
sequential execution on two distinct account objects: if
`self.balance >= amount`, subtract from `self`, add to `other_account` and
return `True`; otherwise return `False` with both accounts unchanged. -/
def BankAccount.transfer_to (self other_account : BankAccount) (amount : Int) :
    Bool × BankAccount × BankAccount :=
  if self.balance ≥ amount then
    (true,
     { self with balance := self.balance - amount },
     { other_account with balance := other_account.balance + amount })
  else
    (false, self, other_account)

/-- C9: under sequential execution, for every pair of distinct accounts and
every amount, `transfer_to` preserves the sum of the two balances; when
`self.balance >= amount` it returns `True` and moves exactly `amount` from
`self` to `other_account`; when the check fails it returns `False` and
leaves both accounts unchanged. -/
theorem transfer_to_preserves_total_balance (a b : BankAccount) (amount : Int)
    (_hdistinct : a.account_id ≠ b.account_id) :
    ((a.transfer_to b amount).2.1.balance + (a.transfer_to b amount).2.2.balance
        = a.balance + b.balance) ∧
    (a.balance ≥ amount →
      (a.transfer_to b amount).1 = true ∧
      (a.transfer_to b amount).2.1.balance = a.balance - amount ∧
      (a.transfer_to b amount).2.2.balance = b.balance + amount) ∧
    (¬ a.balance ≥ amount →
      (a.transfer_to b amount).1 = false ∧
      (a.transfer_to b amount).2.1 = a ∧
      (a.transfer_to b amount).2.2 = b) := by
  unfold BankAccount.transfer_to
  by_cases h : a.balance ≥ amount <;> simp [h]

/-- Witness for C9 at the concrete accounts of `create_transfer_deadlock`
(`BankAccount("A", 1000)`, `BankAccount("B", 1000)`) and amount 100. -/
theorem transfer_to_preserves_total_balance_witness :
    (BankAccount.mk "A" 1000).account_id ≠ (BankAccount.mk "B" 1000).account_id ∧
    ((BankAccount.mk "A" 1000).transfer_to (BankAccount.mk "B" 1000) 100).2.1.balance
        + ((BankAccount.mk "A" 1000).transfer_to (BankAccount.mk "B" 1000) 100).2.2.balance
        = 2000 :=
  ⟨by decide,
   (transfer_to_preserves_total_balance
      (BankAccount.mk "A" 1000) (BankAccount.mk "B" 1000) 100 (by decide)).1⟩

/-! ## Concrete execution of `leaky_function`
(src/flow_analysis/resource_leak.py, lines 14–29) -/

/-- The module-level binding `condition = True` at line 14 of
src/flow_analysis/resource_leak.py ("Make the leak path active"). -/
def condition : Bool := true

/-- Result of one call of `leaky_function`: the returned string, whether the
file handle was closed before returning, and the list of executed source
lines. -/
structure LeakyRun where
  result : String
  fileClosed : Bool
  executedLines : List Nat
deriving DecidableEq, Repr

/-- Shallow embedding of the execution of `leaky_function` on a file whose
contents are `content`: line 19 opens the handle, line 22 tests the
module-level `condition`; on the true branch line 23 reads the first 100
characters and line 24 returns them without closing; on the false branch
line 27 reads the rest, line 28 closes, line 29 returns. -/
def leaky_function (content : String) : LeakyRun :=
  if condition then
    { result := content.take 100,
      fileClosed := false,
      executedLines := [19, 22, 23, 24] }
  else
    { result := content,
      fileClosed := true,
      executedLines := [19, 22, 27, 28, 29] }

/-- C10: because the module-level `condition` is `True`, every call of
`leaky_function` takes the early-return branch: it returns the first 100
characters read from the file, the `f.close()` at line 28 (and lines 27, 29
after the early return) is never executed, and the file handle is never
closed. -/
theorem leaky_function_always_leaks (content : String) :
    (leaky_function content).result = content.take 100 ∧
    (leaky_function content).fileClosed = false ∧
    28 ∉ (leaky_function content).executedLines ∧
    27 ∉ (leaky_function content).executedLines ∧
    29 ∉ (leaky_function content).executedLines ∧
    (leaky_function content).executedLines.getLast? = some 24 := by
  simp [leaky_function, condition]

/-! ## Call-graph propagation: cycle safety and visit cost (spec §4.2, §4.3)

`resolve` preserves dependency cycles as-is in the CallGraph; `propagate` is
the worklist fixed point over it, with each node marked visited at most once
(revisits suppressed).  The step count of the worklist loop is made explicit
so the visited-node cost bound is a theorem, not a comment. -/

structure CallGraph where
  nodes : List String
  edges : List (String × String)
deriving DecidableEq, Repr

/-- Successors of `x` in the call graph. -/
def nbrs (g : CallGraph) (x : String) : List String :=
  (g.edges.filter (fun e => e.1 == x)).map (fun e => e.2)

theorem length_filter_decide_le {α : Type} (p q : α → Prop) [DecidablePred p]
    [DecidablePred q] (l : List α) (h : ∀ a, p a → q a) :
    (l.filter (fun a => decide (p a))).length ≤
      (l.filter (fun a => decide (q a))).length := by
  induction l with
  | nil => simp
  | cons a l ih =>
    simp only [List.filter_cons, decide_eq_true_eq]
    by_cases hp : p a
    · rw [if_pos hp, if_pos (h a hp)]
      simpa using ih
    · by_cases hq : q a
      · rw [if_neg hp, if_pos hq]
        exact Nat.le_succ_of_le ih
      · rw [if_neg hp, if_neg hq]
        exact ih

theorem length_filter_notMem_cons_lt {α : Type} [DecidableEq α] {x : α}
    {l visited : List α} (hx : x ∈ l) (hnv : x ∉ visited) :
    (l.filter (fun v => decide (v ∉ x :: visited))).length <
      (l.filter (fun v => decide (v ∉ visited))).length := by
  induction l with
  | nil => cases hx
  | cons a l ih =>
    simp only [List.filter_cons, decide_eq_true_eq]
    by_cases hax : a = x
    · subst hax
      rw [if_neg (by simp), if_pos hnv]
      have hle := length_filter_decide_le (fun v => v ∉ a :: visited)
        (fun v => v ∉ visited) l
        (fun v hv => fun hc => hv (List.mem_cons_of_mem a hc))
      simpa using Nat.lt_succ_of_le hle
    · have hxl : x ∈ l := by
        rcases List.mem_cons.mp hx with h | h
        · exact absurd h.symm hax
        · exact h
      have heq : (a ∉ x :: visited) ↔ (a ∉ visited) := by
        simp [List.mem_cons, hax]
      by_cases hav : a ∉ visited
      · rw [if_pos (heq.mpr hav), if_pos hav]
        simpa using ih hxl
      · rw [if_neg (fun hc => hav (heq.mp hc)), if_neg hav]
        exact ih hxl

/-- Modelled from the spec (§4.3): the worklist loop of `propagate` over the
CallGraph.  Each iteration pops one worklist entry; an entry already visited
(or not a known node) is suppressed, otherwise it is marked visited and its
callees are pushed.  The first component counts loop iterations; the second
is the final visited list (newest first).  Termination is by the
lexicographic measure (unvisited node count, worklist length) — exactly the
spec's cycle-safety argument that each node is marked visited at most once. -/
def propagateAux (g : CallGraph) (wl visited : List String) : Nat × List String :=
  match wl with
  | [] => (0, visited)
  | x :: rest =>
    if h : x ∈ visited ∨ x ∉ g.nodes then
      ((propagateAux g rest visited).1 + 1, (propagateAux g rest visited).2)
    else
      ((propagateAux g (nbrs g x ++ rest) (x :: visited)).1 + 1,
       (propagateAux g (nbrs g x ++ rest) (x :: visited)).2)
termination_by ((g.nodes.filter (fun v => decide (v ∉ visited))).length, wl.length)
decreasing_by
  all_goals
    first
      | · apply Prod.Lex.right
          simp
      | · apply Prod.Lex.left
          push_neg at h
          exact length_filter_notMem_cons_lt h.2 h.1

theorem propagateAux_nil (g : CallGraph) (visited : List String) :
    propagateAux g [] visited = (0, visited) := by
  rw [propagateAux.eq_def]

theorem propagateAux_cons_skip (g : CallGraph) (x : String)
    (rest visited : List String) (h : x ∈ visited ∨ x ∉ g.nodes) :
    propagateAux g (x :: rest) visited =
      ((propagateAux g rest visited).1 + 1, (propagateAux g rest visited).2) := by
  rw [propagateAux.eq_def]
  exact dif_pos h

theorem propagateAux_cons_visit (g : CallGraph) (x : String)
    (rest visited : List String) (h : ¬ (x ∈ visited ∨ x ∉ g.nodes)) :
    propagateAux g (x :: rest) visited =
      ((propagateAux g (nbrs g x ++ rest) (x :: visited)).1 + 1,
       (propagateAux g (nbrs g x ++ rest) (x :: visited)).2) := by
  rw [propagateAux.eq_def]
  exact dif_neg h

/-- The accounting invariant of the worklist loop: the visited list grows by
a duplicate-free block `newly` of previously unvisited known nodes, and the
iteration count is exactly the initial worklist length plus the out-degrees
of the newly visited nodes — time proportional to the visited-node count. -/
theorem propagateAux_spec (g : CallGraph) (wl visited : List String) :
    ∃ newly : List String,
      (propagateAux g wl visited).2 = newly ++ visited ∧
      (propagateAux g wl visited).1 =
        wl.length + (newly.map (fun v => (nbrs g v).length)).sum ∧
      newly.Nodup ∧
      ∀ v ∈ newly, v ∈ g.nodes ∧ v ∉ visited := by
  induction wl, visited using propagateAux.induct g with
  | case1 visited =>
    exact ⟨[], by simp [propagateAux_nil]⟩
  | case2 visited x rest h ih =>
    obtain ⟨newly, h1, h2, h3, h4⟩ := ih
    refine ⟨newly, ?_, ?_, h3, h4⟩
    · rw [propagateAux_cons_skip g x rest visited h]
      exact h1
    · rw [propagateAux_cons_skip g x rest visited h]
      simp only [List.length_cons]
      omega
  | case3 visited x rest h ih =>
    obtain ⟨newly, h1, h2, h3, h4⟩ := ih
    push_neg at h
    refine ⟨newly ++ [x], ?_, ?_, ?_, ?_⟩
    · rw [propagateAux_cons_visit g x rest visited (by push_neg; exact h)]
      simpa [List.append_assoc] using h1
    · rw [propagateAux_cons_visit g x rest visited (by push_neg; exact h)]
      simp only [h2, List.map_append, List.sum_append, List.length_append,
        List.length_cons, List.map_cons, List.sum_cons, List.map_nil,
        List.sum_nil]
      omega
    · have hxn : x ∉ newly := fun hm => (h4 x hm).2 (List.mem_cons_self x visited)
      simpa [List.nodup_append] using ⟨h3, hxn⟩
    · intro v hv
      rcases List.mem_append.mp hv with hv | hv
      · obtain ⟨hvn, hvv⟩ := h4 v hv
        exact ⟨hvn, fun hc => hvv (List.mem_cons_of_mem x hc)⟩
      · rcases List.mem_singleton.mp hv with rfl
        exact ⟨h.2, h.1⟩

/-- Maximum out-degree over the known nodes. -/
def maxOutDeg (g : CallGraph) : Nat :=
  (g.nodes.map (fun v => (nbrs g v).length)).foldr Nat.max 0

theorem le_foldr_max {l : List Nat} {a : Nat} (h : a ∈ l) :
    a ≤ l.foldr Nat.max 0 := by
  induction l with
  | nil => cases h
  | cons b l ih =>
    rcases List.mem_cons.mp h with rfl | h
    · exact Nat.le_max_left _ _
    · exact Nat.le_trans (ih h) (Nat.le_max_right _ _)

theorem sum_le_length_mul {l : List Nat} {M : Nat} (h : ∀ a ∈ l, a ≤ M) :
    l.sum ≤ l.length * M := by
  induction l with
  | nil => simp
  | cons a l ih =>
    simp only [List.sum_cons, List.length_cons]
    have h1 := ih (fun b hb => h b (List.mem_cons_of_mem _ hb))
    have h2 := h a (List.mem_cons_self _ _)
    calc a + l.sum ≤ M + l.length * M := by omega
    _ = (l.length + 1) * M := by ring

/-- The iteration count of `propagate` from a single entry is linear in the
number of call-graph nodes (each contributing at most its out-degree). -/
theorem propagateAux_linear_bound (g : CallGraph) (entry : String) :
    (propagateAux g [entry] []).1 ≤ 1 + g.nodes.length * maxOutDeg g := by
  obtain ⟨newly, _, h2, h3, h4⟩ := propagateAux_spec g [entry] []
  have hdeg : ∀ a ∈ newly.map (fun v => (nbrs g v).length), a ≤ maxOutDeg g := by
    intro a ha
    obtain ⟨v, hv, rfl⟩ := List.mem_map.mp ha
    exact le_foldr_max (List.mem_map_of_mem _ (h4 v hv).1)
  have hsum := sum_le_length_mul hdeg
  have hsub : newly ⊆ g.nodes := fun v hv => (h4 v hv).1
  have hlen : newly.length ≤ g.nodes.length :=
    (h3.subperm hsub).length_le
  simp only [List.length_map] at hsum
  have : newly.length * maxOutDeg g ≤ g.nodes.length * maxOutDeg g :=
    Nat.mul_le_mul_right _ hlen
  simp only [h2, List.length_cons, List.length_nil]
  omega

/-- Shallow embedding of the call cycle of the spaghetti modules
(src/graph_nightmares/spaghetti/): `function_a` calls `module_b.function_b`
(module_a.py), `function_b` calls `module_c.function_c` (module_b.py), and
`function_c` calls `module_a.function_a` (module_c.py), closing the
A→B→C→A cycle. -/
def spaghettiCycle : CallGraph :=
  { nodes := ["function_a", "function_b", "function_c"],
    edges := [("function_a", "function_b"),
              ("function_b", "function_c"),
              ("function_c", "function_a")] }

/-- The equivalent acyclic rewrite of `spaghettiCycle`: the back edge
`function_c → function_a` is removed; every node stays reachable from the
entry point `function_a`. -/
def spaghettiAcyclic : CallGraph :=
  { nodes := ["function_a", "function_b", "function_c"],
    edges := [("function_a", "function_b"),
              ("function_b", "function_c")] }

/-- Modelled from the spec: the Findings derived from call-graph propagation
are determined by which declared sinks the propagation visits. -/
def graphFindings (file : String) (g : CallGraph) (entry : String)
    (sinks : List String) : List Finding :=
  ((propagateAux g [entry] []).2.filter (fun v => sinks.contains v)).map
    (fun v =>
      { rule := "taint-reach", severity := .high, file := file, line := 0,
        message := v, evidence := [] })

theorem spaghettiCycle_visited :
    (propagateAux spaghettiCycle ["function_a"] []).2 =
      ["function_c", "function_b", "function_a"] := by
  rw [propagateAux_cons_visit _ _ _ _ (by simp [spaghettiCycle])]
  rw [show nbrs spaghettiCycle "function_a" ++ [] = ["function_b"] from rfl]
  rw [propagateAux_cons_visit _ _ _ _ (by simp [spaghettiCycle])]
  rw [show nbrs spaghettiCycle "function_b" ++ [] = ["function_c"] from rfl]
  rw [propagateAux_cons_visit _ _ _ _ (by simp [spaghettiCycle])]
  rw [show nbrs spaghettiCycle "function_c" ++ [] = ["function_a"] from rfl]
  rw [propagateAux_cons_skip _ _ _ _ (by simp)]
  rw [propagateAux_nil]

theorem spaghettiAcyclic_visited :
    (propagateAux spaghettiAcyclic ["function_a"] []).2 =
      ["function_c", "function_b", "function_a"] := by
  rw [propagateAux_cons_visit _ _ _ _ (by simp [spaghettiAcyclic])]
  rw [show nbrs spaghettiAcyclic "function_a" ++ [] = ["function_b"] from rfl]
  rw [propagateAux_cons_visit _ _ _ _ (by simp [spaghettiAcyclic])]
  rw [show nbrs spaghettiAcyclic "function_b" ++ [] = ["function_c"] from rfl]
  rw [propagateAux_cons_visit _ _ _ _ (by simp [spaghettiAcyclic])]
  rw [show nbrs spaghettiAcyclic "function_c" ++ [] = [] from rfl]
  rw [propagateAux_nil]

/-- C2: the worklist propagation over any call graph — cyclic ones included —
terminates (it is a total Lean function, by the visited-at-most-once
measure) in a number of iterations linear in the node count, and on the
concrete 3-module cycle `module_a → module_b → module_c → module_a` it
produces the same Findings, for every choice of declared sinks, as the
equivalent acyclic rewrite reachable from the same entry point
`function_a`. -/
theorem propagate_cycle_safe_and_linear :
    (∀ (g : CallGraph) (entry : String),
        (propagateAux g [entry] []).1 ≤ 1 + g.nodes.length * maxOutDeg g) ∧
    (∀ sinks : List String,
        graphFindings "src/graph_nightmares/spaghetti" spaghettiCycle
            "function_a" sinks =
          graphFindings "src/graph_nightmares/spaghetti" spaghettiAcyclic
            "function_a" sinks) := by
  refine ⟨propagateAux_linear_bound, fun sinks => ?_⟩
  unfold graphFindings
  rw [spaghettiCycle_visited, spaghettiAcyclic_visited]

/-! ## Finding Aggregator & Reporter (spec §4.5), modelled from the spec -/

/-- Dedup key of a Finding: (rule id, file, line, evidence). -/
def findingKey (f : Finding) : String × String × Nat × List (String × Nat) :=
  (f.rule, f.file, f.line, f.evidence)

/-- Modelled from the spec (§4.5): drop Findings whose
(rule id, file, line, evidence) key has already been seen. -/
def dedupAux (seen : List (String × String × Nat × List (String × Nat))) :
    List Finding → List Finding
  | [] => []
  | f :: fs =>
    if findingKey f ∈ seen then dedupAux seen fs
    else f :: dedupAux (findingKey f :: seen) fs

/-- Modelled from the spec (§4.5): the aggregator's ranking — by severity
first (critical highest), then shorter evidence chains first. -/
def rankLE (a b : Finding) : Prop :=
  a.severity.rank < b.severity.rank ∨
    (a.severity.rank = b.severity.rank ∧ a.evidence.length ≤ b.evidence.length)

instance : DecidableRel rankLE := fun a b => by
  unfold rankLE
  infer_instance

theorem rankLE_total : ∀ a b, rankLE a b ∨ rankLE b a := by
  intro a b
  unfold rankLE
  rcases Nat.lt_trichotomy a.severity.rank b.severity.rank with h | h | h
  · exact Or.inl (Or.inl h)
  · rcases Nat.le_total a.evidence.length b.evidence.length with h2 | h2
    · exact Or.inl (Or.inr ⟨h, h2⟩)
    · exact Or.inr (Or.inr ⟨h.symm, h2⟩)
  · exact Or.inr (Or.inl h)

theorem rankLE_trans : ∀ a b c, rankLE a b → rankLE b c → rankLE a c := by
  intro a b c hab hbc
  unfold rankLE at hab hbc ⊢
  rcases hab with h | ⟨h1, h2⟩ <;> rcases hbc with h' | ⟨h1', h2'⟩
  · exact Or.inl (Nat.lt_trans h h')
  · exact Or.inl (h1' ▸ h)
  · exact Or.inl (h1 ▸ h')
  · exact Or.inr ⟨h1.trans h1', Nat.le_trans h2 h2'⟩

/-- Modelled from the spec (§4.5): `aggregate` deduplicates Findings with
identical (rule id, file, line, evidence) and stable-sorts by severity,
then evidence-chain length. -/
def aggregate (fs : List Finding) : List Finding :=
  List.insertionSort rankLE (dedupAux [] fs)

theorem mem_dedupAux_key_notMem :
    ∀ (fs : List Finding) seen f, f ∈ dedupAux seen fs → findingKey f ∉ seen := by
  intro fs
  induction fs with
  | nil =>
    intro seen f h
    simp [dedupAux] at h
  | cons g fs ih =>
    intro seen f h
    simp only [dedupAux] at h
    by_cases hg : findingKey g ∈ seen
    · rw [if_pos hg] at h
      exact ih seen f h
    · rw [if_neg hg] at h
      rcases List.mem_cons.mp h with rfl | h
      · exact hg
      · have hf := ih _ f h
        exact fun hc => hf (List.mem_cons_of_mem _ hc)

theorem dedupAux_pairwise (fs : List Finding) :
    ∀ seen, (dedupAux seen fs).Pairwise
      (fun a b => findingKey a ≠ findingKey b) := by
  induction fs with
  | nil =>
    intro seen
    simp [dedupAux]
  | cons g fs ih =>
    intro seen
    simp only [dedupAux]
    by_cases hg : findingKey g ∈ seen
    · rw [if_pos hg]
      exact ih seen
    · rw [if_neg hg]
      refine List.Pairwise.cons ?_ (ih _)
      intro b hb hc
      exact (mem_dedupAux_key_notMem _ _ _ hb) (hc ▸ List.mem_cons_self _ _)

theorem dedupAux_eq_self :
    ∀ (fs : List Finding) seen,
      fs.Pairwise (fun a b => findingKey a ≠ findingKey b) →
      (∀ f ∈ fs, findingKey f ∉ seen) →
      dedupAux seen fs = fs := by
  intro fs
  induction fs with
  | nil =>
    intro seen _ _
    simp [dedupAux]
  | cons g fs ih =>
    intro seen hpw hseen
    simp only [dedupAux]
    rw [if_neg (hseen g (List.mem_cons_self _ _))]
    congr 1
    refine ih _ (List.Pairwise.of_cons hpw) ?_
    intro f hf hc
    rcases List.mem_cons.mp hc with he | he
    · exact (List.pairwise_cons.mp hpw).1 f hf he.symm
    · exact hseen f (List.mem_cons_of_mem _ hf) he

/-- Re-aggregating an already aggregated Report changes nothing: the dedup
finds no duplicate keys and the stable sort leaves a sorted list in place. -/
theorem aggregate_idem (fs : List Finding) :
    aggregate (aggregate fs) = aggregate fs := by
  unfold aggregate
  have hpw := dedupAux_pairwise fs []
  have hperm := List.perm_insertionSort rankLE (dedupAux [] fs)
  have hpw2 :
      (List.insertionSort rankLE (dedupAux [] fs)).Pairwise
        (fun a b => findingKey a ≠ findingKey b) :=
    (List.Perm.pairwise_iff (by intro x y h; exact Ne.symm h) hperm).mpr hpw
  rw [dedupAux_eq_self _ [] hpw2 (by simp)]
  letI : IsTotal Finding rankLE := ⟨rankLE_total⟩
  letI : IsTrans Finding rankLE := ⟨rankLE_trans⟩
  exact List.Sorted.insertionSort_eq (List.sorted_insertionSort rankLE _)

/-- Modelled from the spec: the full pipeline on a list of source units —
per-unit taint analysis, then aggregation. -/
def analyzeUnit (u : String × Body) : List Finding :=
  (runBody u.1 u.2).1

/-- Modelled from the spec: one pipeline run over unchanged input. -/
def runPipeline (units : List (String × Body)) : List Finding :=
  aggregate ((units.map analyzeUnit).flatten)

def serializeEvidence (e : List (String × Nat)) : String :=
  e.foldl (fun acc p => acc ++ "(" ++ p.1 ++ ":" ++ toString p.2 ++ ")") ""

def serializeFinding (f : Finding) : String :=
  f.rule ++ "|" ++ toString f.severity.rank ++ "|" ++ f.file ++ "|" ++
    toString f.line ++ "|" ++ f.message ++ "|" ++ serializeEvidence f.evidence

/-- Modelled from the spec (§6): the Reporter renders the ordered Finding
list to a machine-readable string. -/
def serializeReport (fs : List Finding) : String :=
  fs.foldl (fun acc f => acc ++ serializeFinding f ++ "\n") ""

/-- C7: running the pipeline twice on unchanged input yields an identical
Report, byte-for-byte, order included.  The pipeline is a pure function of
its input (the model keeps no hidden per-run state), so the two runs agree
definitionally; the substantial half is that the second run's aggregation
pass finds nothing new: re-aggregating the Report of the first run — dedup
plus the stable severity/evidence-length sort — returns it unchanged. -/
theorem pipeline_idempotent (units : List (String × Body)) :
    serializeReport (runPipeline units) = serializeReport (runPipeline units) ∧
    aggregate (runPipeline units) = runPipeline units :=
  ⟨rfl, aggregate_idem _⟩

/-! ## The corpus file table (all 57 source files)

For each source file: its repo-relative path; whether its leading comment
header names the file's intended defects (a "Fake Errors" list, "ERROR nnn"
numbers or ranges, a TAINT FLOWS list, or an explicit intended-defect
theme); and which other corpus files it imports (imports that resolve to a
file of this repository — imports of the standard library, of third-party
packages, or of modules that do not exist in the repository are not
listed). -/

structure CorpusFile where
  name : String
  headerEnumeratesDefects : Bool
  corpusImports : List String
deriving DecidableEq, Repr

/-- The 57 source files of the corpus, transcribed from the repository. -/
def corpus : List CorpusFile :=
  [ ⟨"anarchy_commerce/services/users/main.py", true, []⟩,
    ⟨"api/app.py", true,
      ["api/db.py", "api/auth_service.py", "api/secure_routes.py"]⟩,
    ⟨"api/auth_service.py", true, []⟩,
    ⟨"api/config_loader.py", true, []⟩,
    ⟨"api/contracts.py", true, []⟩,
    ⟨"api/data_corruption.py", true, []⟩,
    ⟨"api/db.py", true, ["api/utils.py"]⟩,
    ⟨"api/db_connection_hell.py", true, []⟩,
    ⟨"api/dynamic_loader.py", true,
      ["api/utils.py", "tests/test_flaky.py", "tests/test_logic.py"]⟩,
    ⟨"api/event_system.py", true, []⟩,
    ⟨"api/final_coverage_completion.py", true, ["api/utils.py"]⟩,
    ⟨"api/final_rca_scenarios.py", true, []⟩,
    ⟨"api/idor_vulnerable.py", true, []⟩,
    ⟨"api/risky_operations.py", true, []⟩,
    ⟨"api/secure_routes.py", true, []⟩,
    ⟨"api/streams.py", true, []⟩,
    ⟨"api/taint_endpoints.py", true, []⟩,
    ⟨"api/utils.py", true, ["api/db.py", "api/app.py"]⟩,
    ⟨"api/validation_patterns.py", true, []⟩,
    ⟨"api/violations/flake8_violations.py", true, []⟩,
    ⟨"api/violations/ruff_violations.py", true, ["api/utils.py"]⟩,
    ⟨"dependencies/python_project/setup.py", true, []⟩,
    ⟨"flow_analysis/deadlock.py", true, []⟩,
    ⟨"flow_analysis/race_condition.py", true, []⟩,
    ⟨"flow_analysis/resource_leak.py", true, []⟩,
    ⟨"frameworks/django_project/settings.py", true, []⟩,
    ⟨"frameworks/django_project/taint_views.py", true, []⟩,
    ⟨"frameworks/django_project/urls.py", true,
      ["frameworks/django_project/taint_views.py"]⟩,
    ⟨"frameworks/fastapi_project/config.py", true, []⟩,
    ⟨"frameworks/fastapi_project/main.py", true, []⟩,
    ⟨"frameworks/fastapi_project/taint_routes.py", true, []⟩,
    ⟨"graph_nightmares/god_object.py", true,
      ["graph_nightmares/hotspots/critical.py"]⟩,
    ⟨"graph_nightmares/hotspots/critical.py", true, []⟩,
    ⟨"graph_nightmares/layer_violations/business/logic.py", true,
      ["tests/test_rca_scenarios.py", "graph_nightmares/hotspots/critical.py"]⟩,
    ⟨"graph_nightmares/layer_violations/database/db_model.py", true,
      ["graph_nightmares/layer_violations/ui/ui_component.py"]⟩,
    ⟨"graph_nightmares/layer_violations/ui/ui_component.py", true,
      ["graph_nightmares/layer_violations/database/db_model.py"]⟩,
    ⟨"graph_nightmares/spaghetti/module_a.py", true,
      ["graph_nightmares/spaghetti/module_b.py"]⟩,
    ⟨"graph_nightmares/spaghetti/module_b.py", true,
      ["graph_nightmares/spaghetti/module_c.py"]⟩,
    ⟨"graph_nightmares/spaghetti/module_c.py", true,
      ["graph_nightmares/spaghetti/module_a.py"]⟩,
    ⟨"graph_nightmares/spaghetti/module_d.py", true,
      ["graph_nightmares/spaghetti/module_a.py",
       "graph_nightmares/spaghetti/module_b.py",
       "graph_nightmares/spaghetti/module_c.py",
       "graph_nightmares/hotspots/critical.py"]⟩,
    ⟨"performance/bottlenecks.py", true, []⟩,
    ⟨"polyglot_project/backend/main.py", true, []⟩,
    ⟨"python_pipeline/api/fastapi_endpoint.py", true,
      ["python_pipeline/db/database.py",
       "python_pipeline/db/sqlalchemy_models.py",
       "python_pipeline/processing/tasks.py",
       "python_pipeline/services/data_ingestion.py"]⟩,
    ⟨"python_pipeline/db/database.py", false,
      ["python_pipeline/db/sqlalchemy_models.py"]⟩,
    ⟨"python_pipeline/db/sqlalchemy_models.py", true, []⟩,
    ⟨"python_pipeline/processing/tasks.py", true,
      ["python_pipeline/db/sqlalchemy_models.py",
       "python_pipeline/db/database.py"]⟩,
    ⟨"python_pipeline/services/data_ingestion.py", true, []⟩,
    ⟨"scripts/complex_processor.py", true, []⟩,
    ⟨"scripts/data_importer.py", true, []⟩,
    ⟨"security/security_holes.py", true, []⟩,
    ⟨"static/main.js.py", true, []⟩,
    ⟨"tests/final_test_guidance.py", true, []⟩,
    ⟨"tests/python_tests/test_ineffective.py", true, []⟩,
    ⟨"tests/test_advanced.py", true, ["api/auth_service.py"]⟩,
    ⟨"tests/test_flaky.py", true, []⟩,
    ⟨"tests/test_logic.py", true, []⟩,
    ⟨"tests/test_rca_scenarios.py", true, []⟩ ]

/-- C6 counterexample: the claim "every corpus file is isolated (imports no
other corpus file) and carries a defect-enumerating header" is false:
graph_nightmares/spaghetti/module_a.py (entry 36 of the table) — whose flaw
scenario is precisely the circular import — imports
graph_nightmares/spaghetti/module_b.py. -/
theorem corpus_isolation_counterexample :
    ¬ (∀ f ∈ corpus, f.corpusImports = [] ∧ f.headerEnumeratesDefects = true) := by
  intro h
  have h36 : 36 < corpus.length := by decide
  have hc := (h (corpus.get ⟨36, h36⟩) (corpus.get_mem 36 h36)).1
  rw [show corpus.get ⟨36, h36⟩ =
      ⟨"graph_nightmares/spaghetti/module_a.py", true,
        ["graph_nightmares/spaghetti/module_b.py"]⟩ from rfl] at hc
  simp at hc

/-- C6 amended: the corpus has 57 source files; every file except
python_pipeline/db/database.py carries a comment header naming its intended
defects (database.py marks its defects only in inline comments); and the
corpus is not import-isolated — exactly 19 files' flaw scenarios import
other corpus files (the circular-import chain, the layering violations, the
god-object import of the hotspot module, the cross-boundary imports, and
the python_pipeline package). -/
theorem corpus_headers_and_cross_imports :
    corpus.length = 57 ∧
    (corpus.filter (fun f => !f.headerEnumeratesDefects)).map
        (fun f => f.name) = ["python_pipeline/db/database.py"] ∧
    (corpus.filter (fun f => !f.corpusImports.isEmpty)).map
        (fun f => f.name) =
      [ "api/app.py", "api/db.py", "api/dynamic_loader.py",
        "api/final_coverage_completion.py", "api/utils.py",
        "api/violations/ruff_violations.py",
        "frameworks/django_project/urls.py",
        "graph_nightmares/god_object.py",
        "graph_nightmares/layer_violations/business/logic.py",
        "graph_nightmares/layer_violations/database/db_model.py",
        "graph_nightmares/layer_violations/ui/ui_component.py",
        "graph_nightmares/spaghetti/module_a.py",
        "graph_nightmares/spaghetti/module_b.py",
        "graph_nightmares/spaghetti/module_c.py",
        "graph_nightmares/spaghetti/module_d.py",
        "python_pipeline/api/fastapi_endpoint.py",
        "python_pipeline/db/database.py",
        "python_pipeline/processing/tasks.py",
        "tests/test_advanced.py" ] :=
  ⟨rfl, rfl, rfl⟩

end Anarchy
